import Mathlib

/-!
Verification of the folder-reading tool of the file-cleaner repository
(`FileCleaner.py`, class `FileReaderTool`, method `_run`, called
`read_folder` in the specification).

The Python code is embedded shallowly: the filesystem is a structure `FS`
recording what the code can observe through `os.path.isdir`, `os.listdir`,
`os.path.isfile` and `open(path, 'r', encoding='utf-8')`; the tool itself
becomes a pure Lean function over `FS`.  Platform behaviour the code relies
on is embedded faithfully:

* `os.path.isdir` / `os.path.isfile` follow symbolic links, so a symbolic
  link to a regular file passes the `isfile` test and a symbolic link to a
  directory passes the `isdir` test (Python library reference,
  `os.path.isfile`: "This follows symbolic links").
* `open` in mode `'r'` with no `newline` argument uses universal-newlines
  decoding: every `"\r\n"` and every lone `"\r"` in the decoded stream is
  translated to `"\n"` before `f.read()` returns.
* `os.path.join` on POSIX: a second component starting with `/` replaces
  the first; otherwise a `/` separator is inserted unless the first
  component is empty or already ends with `/`.
-/

/-- Kind of filesystem object a path refers to, as the platform's `stat`
family reports it.  `symlinkToFile` / `symlinkToDir` are symbolic links
whose targets are a regular file / a directory. -/
inductive EntryKind where
  | regularFile
  | directory
  | symlinkToFile
  | symlinkToDir
  | missing
  | other
deriving DecidableEq, Repr

/-- Snapshot of the filesystem as observable by the Python code:
`kindAt` is what the `stat` family reports for a path, `listdir` is the
platform's enumeration of a directory's immediate entries (in enumeration
order, as `os.listdir` returns them), and `readRaw` is the outcome of
`open(path, 'r', encoding='utf-8')` followed by a full read *before*
universal-newlines translation: `Except.ok text` is the decoded text with
its on-disk line endings, `Except.error e` is the description `str(ex)` of
the exception raised by opening or decoding (permission, decode or I/O
error). -/
structure FS where
  kindAt : String → EntryKind
  listdir : String → List String
  readRaw : String → Except String String

/-- Embeds `os.path.isdir p`: true iff `p` refers to a directory,
following symbolic links. -/
def FS.isdir (fs : FS) (p : String) : Bool :=
  match fs.kindAt p with
  | .directory => true
  | .symlinkToDir => true
  | _ => false

/-- Embeds `os.path.isfile p`: true iff `p` refers to a regular file,
following symbolic links (so a symbolic link to a regular file counts). -/
def FS.isfile (fs : FS) (p : String) : Bool :=
  match fs.kindAt p with
  | .regularFile => true
  | .symlinkToFile => true
  | _ => false

/-- Whether a string's first character is the path separator `/`. -/
def headIsSlash (s : String) : Bool :=
  match s.data with
  | [] => false
  | c :: _ => c = '/'

/-- Whether a string's last character is the path separator `/`. -/
def lastIsSlash (s : String) : Bool :=
  match s.data.getLast? with
  | some c => c = '/'
  | none => false

/-- Embeds POSIX `os.path.join(a, b)` for the two-argument call on line 47
of the source: an absolute second component replaces the first; otherwise
a `/` separator is inserted unless the first component is empty or already
ends with `/`. -/
def osPathJoin (a b : String) : String :=
  if headIsSlash b then b
  else if a = "" then b
  else if lastIsSlash a then a ++ b
  else a ++ "/" ++ b

/-- Universal-newlines translation on a character list: `"\r\n"` and lone
`"\r"` become `"\n"`, as Python's text mode performs it during `f.read()`. -/
def translateNewlines : List Char → List Char
  | [] => []
  | '\r' :: '\n' :: rest => '\n' :: translateNewlines rest
  | '\r' :: rest => '\n' :: translateNewlines rest
  | c :: rest => c :: translateNewlines rest

/-- Universal-newlines translation on strings: what `f.read()` returns in
mode `'r'` given the decoded on-disk text. -/
def universalNewlines (s : String) : String :=
  ⟨translateNewlines s.data⟩

/-- Value of a Python expression that is either a `str` or a
`dict[str, str]`: the dynamic result type of `FileReaderTool._run`.  The
dictionary is an insertion-ordered association list, matching CPython's
`dict` (keys in insertion order). -/
inductive PyValue where
  | str (s : String)
  | dict (d : List (String × String))
deriving DecidableEq, Repr

/-- CPython `dict` assignment `d[k] = v` on an insertion-ordered
association list: an existing key keeps its position and gets the new
value, a new key is appended. -/
def dictInsert (d : List (String × String)) (k v : String) : List (String × String) :=
  match d with
  | [] => [(k, v)]
  | (k', v') :: rest => if k' = k then (k, v) :: rest else (k', v') :: dictInsert rest k v

/-- Lookup `d[k]` in the association-list embedding of a `dict`. -/
def lookupDict (d : List (String × String)) (k : String) : Option String :=
  match d with
  | [] => none
  | (k', v') :: rest => if k' = k then some v' else lookupDict rest k

/-- Keys of the association-list embedding of a `dict`, in insertion
order. -/
def dictKeys (d : List (String × String)) : List String :=
  d.map Prod.fst

/-- One iteration of the loop on lines 46-53 of the source: join the
filename onto the folder path, and if `os.path.isfile` holds, store either
the text read (after universal-newlines translation) or the
`"Error reading file: "` string under the filename. -/
def readEntry (fs : FS) (folderPath : String) (acc : List (String × String))
    (filename : String) : List (String × String) :=
  let filePath := osPathJoin folderPath filename
  if fs.isfile filePath then
    match fs.readRaw filePath with
    | .ok text => dictInsert acc filename (universalNewlines text)
    | .error ex => dictInsert acc filename ("Error reading file: " ++ ex)
  else acc

/-- Embeds `FileReaderTool._run` (the spec's `read_folder`): return the
sentinel string when the path is not a directory, otherwise fold the
per-entry loop over the directory enumeration starting from the empty
`dict`. -/
def read_folder (fs : FS) (folderPath : String) : PyValue :=
  if fs.isdir folderPath then
    .dict ((fs.listdir folderPath).foldl (readEntry fs folderPath) [])
  else
    .str "Provided path is not a directory."

/-- The value the loop body stores for one directory entry, as a function
of the filesystem and the entry alone: `none` when the entry fails the
`isfile` test, otherwise the translated text or the error string. -/
def valueFor (fs : FS) (folderPath filename : String) : Option String :=
  let filePath := osPathJoin folderPath filename
  if fs.isfile filePath then
    match fs.readRaw filePath with
    | .ok text => some (universalNewlines text)
    | .error ex => some ("Error reading file: " ++ ex)
  else none

/-- The inputs dictionary built by `FileCleaner.kickoff` (lines 157-161 of
the source): both paths are passed through `os.path.expanduser` before
being handed to the crew; `expanduser` itself is the platform's and is a
parameter here. -/
def kickoffInputs (expanduser : String → String)
    (targetPath standardPath : String) : List (String × String) :=
  [("target_folder", expanduser targetPath),
   ("standard_folder", expanduser standardPath)]

/-! ### Instrumented variant recording filesystem operations -/

/-- Filesystem operation, for tracing what the tool touches: the four
read-only operations the code performs (`os.path.isdir`, `os.listdir`,
`os.path.isfile`, `open` for reading), plus hypothetical mutating
operations (writing a file, deleting a file) that exist on the platform
but are never performed by this code. -/
inductive FSOp where
  | isdirQ (p : String)
  | listdirQ (p : String)
  | isfileQ (p : String)
  | openRead (p : String)
  | writeFile (p : String) (text : String)
  | removeFile (p : String)
deriving DecidableEq, Repr

/-- Whether an operation mutates the filesystem. -/
def FSOp.isMutating : FSOp → Bool
  | .writeFile _ _ => true
  | .removeFile _ => true
  | _ => false

/-- Effect of one operation on the filesystem state: queries and reads
leave it unchanged, the mutating operations change what the path refers
to. -/
def applyOp (fs : FS) : FSOp → FS
  | .isdirQ _ => fs
  | .listdirQ _ => fs
  | .isfileQ _ => fs
  | .openRead _ => fs
  | .writeFile p text =>
      { fs with
        kindAt := fun q => if q = p then .regularFile else fs.kindAt q,
        readRaw := fun q => if q = p then .ok text else fs.readRaw q }
  | .removeFile p =>
      { fs with
        kindAt := fun q => if q = p then .missing else fs.kindAt q,
        readRaw := fun q =>
          if q = p then .error "No such file or directory" else fs.readRaw q }

/-- Instrumented loop body: computes the same dictionary as `readEntry`
and appends the filesystem operations the iteration performs (the
`os.path.isfile` test, then the `open`-and-read when the test passes). -/
def readEntryT (fs : FS) (folderPath : String)
    (st : List (String × String) × List FSOp) (filename : String) :
    List (String × String) × List FSOp :=
  let filePath := osPathJoin folderPath filename
  if fs.isfile filePath then
    match fs.readRaw filePath with
    | .ok text =>
        (dictInsert st.1 filename (universalNewlines text),
         st.2 ++ [.isfileQ filePath, .openRead filePath])
    | .error ex =>
        (dictInsert st.1 filename ("Error reading file: " ++ ex),
         st.2 ++ [.isfileQ filePath, .openRead filePath])
  else (st.1, st.2 ++ [.isfileQ filePath])

/-- Instrumented `FileReaderTool._run`: the result paired with the trace
of filesystem operations performed, in order. -/
def readFolderT (fs : FS) (folderPath : String) : PyValue × List FSOp :=
  if fs.isdir folderPath then
    let st := (fs.listdir folderPath).foldl (readEntryT fs folderPath)
      ([], [.isdirQ folderPath, .listdirQ folderPath])
    (.dict st.1, st.2)
  else
    (.str "Provided path is not a directory.", [.isdirQ folderPath])

/-- Whether a string's first character is `~`, the home-directory marker
that `os.path.expanduser` would expand and `FileReaderTool._run` does
not. -/
def startsWithTilde (s : String) : Bool :=
  match s.data with
  | '~' :: _ => true
  | _ => false

/-! ### Concrete filesystems used to instantiate the theorems -/

/-- Demo `os.path.expanduser` for a user whose home directory is
`/home/u`: a leading `~` is replaced by `/home/u`. -/
def expanduserDemo (q : String) : String :=
  match q.data with
  | '~' :: rest => "/home/u" ++ (⟨rest⟩ : String)
  | _ => q

/-- Directory `/d` with a readable file `a.txt` and a file `bad.txt`
whose open fails with a permission error. -/
def fsErrDemo : FS where
  kindAt := fun q =>
    if q = "/d" then .directory
    else if q = "/d/a.txt" then .regularFile
    else if q = "/d/bad.txt" then .regularFile
    else .missing
  listdir := fun q => if q = "/d" then ["a.txt", "bad.txt"] else []
  readRaw := fun q =>
    if q = "/d/a.txt" then .ok "hi"
    else if q = "/d/bad.txt" then .error "Permission denied"
    else .error "No such file or directory"

/-- Directory `/d` with a single regular valid-UTF-8 text file `a.txt`
whose on-disk decoded content is `"x\r\ny"` (CRLF line ending). -/
def fsCrlfC2 : FS where
  kindAt := fun q =>
    if q = "/d" then .directory
    else if q = "/d/a.txt" then .regularFile
    else .missing
  listdir := fun q => if q = "/d" then ["a.txt"] else []
  readRaw := fun q =>
    if q = "/d/a.txt" then .ok "x\r\ny" else .error "No such file or directory"

/-- Directory `/d` with two regular files with CR-free contents. -/
def fsGoodC2 : FS where
  kindAt := fun q =>
    if q = "/d" then .directory
    else if q = "/d/a.txt" then .regularFile
    else if q = "/d/b.txt" then .regularFile
    else .missing
  listdir := fun q => if q = "/d" then ["a.txt", "b.txt"] else []
  readRaw := fun q =>
    if q = "/d/a.txt" then .ok "alpha"
    else if q = "/d/b.txt" then .ok "beta\n"
    else .error "No such file or directory"

/-- Filesystem with no directories at all. -/
def fsNotDirC3 : FS where
  kindAt := fun _ => .missing
  listdir := fun _ => []
  readRaw := fun _ => .error "No such file or directory"

/-- Directory `/d` whose only entry `link.txt` is a symbolic link to a
regular file. -/
def fsSymC4 : FS where
  kindAt := fun q =>
    if q = "/d" then .directory
    else if q = "/d/link.txt" then .symlinkToFile
    else .missing
  listdir := fun q => if q = "/d" then ["link.txt"] else []
  readRaw := fun q =>
    if q = "/d/link.txt" then .ok "hello" else .error "No such file or directory"

/-- Directory `/d` with a regular file, a subdirectory and a symbolic
link to a directory among its entries. -/
def fsMixedC4 : FS where
  kindAt := fun q =>
    if q = "/d" then .directory
    else if q = "/d/a.txt" then .regularFile
    else if q = "/d/sub" then .directory
    else if q = "/d/dirlink" then .symlinkToDir
    else .missing
  listdir := fun q => if q = "/d" then ["a.txt", "sub", "dirlink"] else []
  readRaw := fun q =>
    if q = "/d/a.txt" then .ok "hi" else .error "No such file or directory"

/-- Directory `/d` with one readable file, for the determinism witness. -/
def fsDetC5 : FS where
  kindAt := fun q =>
    if q = "/d" then .directory
    else if q = "/d/a.txt" then .regularFile
    else .missing
  listdir := fun q => if q = "/d" then ["a.txt"] else []
  readRaw := fun q =>
    if q = "/d/a.txt" then .ok "hi" else .error "No such file or directory"

/-- Directory `/d` enumerated in non-sorted order `["b.txt", "a.txt"]`
with a subdirectory in between. -/
def fsOrderC6 : FS where
  kindAt := fun q =>
    if q = "/d" then .directory
    else if q = "/d/b.txt" then .regularFile
    else if q = "/d/sub" then .directory
    else if q = "/d/a.txt" then .regularFile
    else .missing
  listdir := fun q => if q = "/d" then ["b.txt", "sub", "a.txt"] else []
  readRaw := fun q =>
    if q = "/d/b.txt" then .ok "b"
    else if q = "/d/a.txt" then .ok "a"
    else .error "No such file or directory"

/-- Empty existing directory `/d`. -/
def fsEmptyC7 : FS where
  kindAt := fun q => if q = "/d" then .directory else .missing
  listdir := fun _ => []
  readRaw := fun _ => .error "No such file or directory"

/-- Directory `/d` with one readable file and one unreadable file, for
the read-only-access witness. -/
def fsFrameC8 : FS where
  kindAt := fun q =>
    if q = "/d" then .directory
    else if q = "/d/a.txt" then .regularFile
    else .missing
  listdir := fun q => if q = "/d" then ["a.txt"] else []
  readRaw := fun q =>
    if q = "/d/a.txt" then .ok "hi" else .error "No such file or directory"

/-- Filesystem in which `/home/u/d` is a directory but the unexpanded
path `~/d` is nothing. -/
def fsTildeC9 : FS where
  kindAt := fun q => if q = "/home/u/d" then .directory else .missing
  listdir := fun _ => []
  readRaw := fun _ => .error "No such file or directory"

/-- Directory `/d` with a single regular file whose on-disk decoded
content `"x\r\ny"` has a CRLF line ending. -/
def fsCrlfC10 : FS where
  kindAt := fun q =>
    if q = "/d" then .directory
    else if q = "/d/a.txt" then .regularFile
    else .missing
  listdir := fun q => if q = "/d" then ["a.txt"] else []
  readRaw := fun q =>
    if q = "/d/a.txt" then .ok "x\r\ny" else .error "No such file or directory"

/-! ### Helper lemmas about the `dict` embedding -/

lemma lookupDict_dictInsert (d : List (String × String)) (k v m : String) :
    lookupDict (dictInsert d k v) m = if k = m then some v else lookupDict d m := by
  induction d with
  | nil => rfl
  | cons hd tl ih =>
    obtain ⟨k', v'⟩ := hd
    by_cases h1 : k' = k
    · subst h1
      simp only [dictInsert, if_pos rfl, lookupDict]
      by_cases h2 : k' = m
      · rw [if_pos h2, if_pos h2]
      · rw [if_neg h2, if_neg h2, if_neg h2]
    · simp only [dictInsert, if_neg h1, lookupDict, ih]
      by_cases h2 : k' = m
      · subst h2
        rw [if_pos rfl, if_neg fun h => h1 h.symm, if_pos rfl]
      · rw [if_neg h2]
        by_cases h3 : k = m
        · rw [if_pos h3, if_pos h3]
        · rw [if_neg h3, if_neg h3, if_neg h2]

lemma dictKeys_dictInsert (d : List (String × String)) (k v : String) :
    dictKeys (dictInsert d k v) =
      if k ∈ dictKeys d then dictKeys d else dictKeys d ++ [k] := by
  induction d with
  | nil => rfl
  | cons hd tl ih =>
    obtain ⟨k', v'⟩ := hd
    by_cases h1 : k' = k
    · subst h1
      simp [dictInsert, dictKeys]
    · have hne : k ≠ k' := Ne.symm h1
      simp only [dictInsert, if_neg h1, dictKeys, List.map_cons] at ih ⊢
      rw [ih]
      by_cases h2 : k ∈ List.map Prod.fst tl
      · rw [if_pos h2, if_pos (List.mem_cons.mpr (Or.inr h2))]
      · rw [if_neg h2, if_neg (by simp [List.mem_cons, hne, h2])]
        rfl

lemma mem_dictKeys_iff_lookupDict (d : List (String × String)) (m : String) :
    m ∈ dictKeys d ↔ (lookupDict d m).isSome = true := by
  induction d with
  | nil => simp [dictKeys, lookupDict]
  | cons hd tl ih =>
    obtain ⟨k', v'⟩ := hd
    simp only [dictKeys, List.map_cons, List.mem_cons, lookupDict]
    by_cases h : k' = m
    · subst h
      simp
    · rw [if_neg h, ← ih]
      simp [dictKeys, Ne.symm h]

lemma nodup_dictKeys_dictInsert (d : List (String × String)) (k v : String)
    (h : (dictKeys d).Nodup) : (dictKeys (dictInsert d k v)).Nodup := by
  rw [dictKeys_dictInsert]
  by_cases hk : k ∈ dictKeys d
  · rwa [if_pos hk]
  · rw [if_neg hk]
    refine List.Nodup.append h (List.nodup_singleton k) ?_
    intro a ha hb
    rw [List.mem_singleton] at hb
    subst hb
    exact hk ha

lemma readEntry_eq (fs : FS) (folderPath : String) (acc : List (String × String))
    (filename : String) :
    readEntry fs folderPath acc filename =
      match valueFor fs folderPath filename with
      | some v => dictInsert acc filename v
      | none => acc := by
  simp only [readEntry, valueFor]
  by_cases h : fs.isfile (osPathJoin folderPath filename)
  · simp only [if_pos h]
    cases fs.readRaw (osPathJoin folderPath filename) <;> rfl
  · simp only [if_neg h]

lemma valueFor_isSome (fs : FS) (p n : String) :
    (valueFor fs p n).isSome = fs.isfile (osPathJoin p n) := by
  simp only [valueFor]
  by_cases h : fs.isfile (osPathJoin p n)
  · simp only [if_pos h, h]
    cases fs.readRaw (osPathJoin p n) <;> rfl
  · rw [if_neg h, Bool.not_eq_true] at *
    rw [h]
    rfl

lemma lookupDict_foldl (fs : FS) (p : String) (l : List String)
    (acc : List (String × String)) (m : String) :
    lookupDict (l.foldl (readEntry fs p) acc) m =
      match valueFor fs p m with
      | some v => if m ∈ l then some v else lookupDict acc m
      | none => lookupDict acc m := by
  induction l generalizing acc with
  | nil => cases valueFor fs p m <;> simp
  | cons x xs ih =>
    rw [List.foldl_cons, ih, readEntry_eq]
    by_cases hxm : x = m
    · subst hxm
      cases hv : valueFor fs p x with
      | none => simp [hv]
      | some v =>
        simp only [hv, List.mem_cons, true_or, if_pos]
        by_cases hmem : x ∈ xs
        · rw [if_pos hmem]
        · rw [if_neg hmem, lookupDict_dictInsert, if_pos rfl]
    · cases hv : valueFor fs p x with
      | none =>
        cases hvm : valueFor fs p m <;>
          simp [hvm, List.mem_cons, Ne.symm hxm]
      | some v =>
        rw [lookupDict_dictInsert, if_neg hxm]
        cases hvm : valueFor fs p m <;>
          simp [hvm, List.mem_cons, Ne.symm hxm]

lemma mem_dictKeys_foldl (fs : FS) (p : String) (l : List String)
    (acc : List (String × String)) (m : String) :
    m ∈ dictKeys (l.foldl (readEntry fs p) acc) ↔
      (m ∈ l ∧ fs.isfile (osPathJoin p m) = true) ∨ m ∈ dictKeys acc := by
  rw [mem_dictKeys_iff_lookupDict, lookupDict_foldl, ← valueFor_isSome]
  cases hv : valueFor fs p m with
  | none => simp [mem_dictKeys_iff_lookupDict]
  | some v =>
    by_cases hm : m ∈ l
    · simp [hm]
    · simp [hm, mem_dictKeys_iff_lookupDict]

lemma dictKeys_foldl (fs : FS) (p : String) :
    ∀ (l : List String) (acc : List (String × String)), l.Nodup →
      (∀ n ∈ l, n ∉ dictKeys acc) →
      dictKeys (l.foldl (readEntry fs p) acc) =
        dictKeys acc ++ l.filter (fun n => fs.isfile (osPathJoin p n)) := by
  intro l
  induction l with
  | nil =>
    intro acc _ _
    simp
  | cons x xs ih =>
    intro acc hl hacc
    rw [List.foldl_cons, readEntry_eq, List.filter_cons]
    have hx : x ∉ dictKeys acc := hacc x (List.mem_cons_self x xs)
    have hxs : xs.Nodup := (List.nodup_cons.mp hl).2
    have hxnotxs : x ∉ xs := (List.nodup_cons.mp hl).1
    cases hv : valueFor fs p x with
    | none =>
      have hfile : fs.isfile (osPathJoin p x) = false := by
        have h := valueFor_isSome fs p x
        rw [hv] at h
        exact h.symm
      rw [hfile]
      simp only [Bool.false_eq_true, if_false]
      exact ih acc hxs fun n hn => hacc n (List.mem_cons_of_mem _ hn)
    | some v =>
      have hfile : fs.isfile (osPathJoin p x) = true := by
        have h := valueFor_isSome fs p x
        rw [hv] at h
        exact h.symm
      rw [hfile]
      simp only [if_true]
      have hacc' : ∀ n ∈ xs, n ∉ dictKeys (dictInsert acc x v) := by
        intro n hn
        rw [dictKeys_dictInsert, if_neg hx]
        simp only [List.mem_append, List.mem_singleton]
        rintro (h | rfl)
        · exact hacc n (List.mem_cons_of_mem _ hn) h
        · exact hxnotxs hn
      rw [ih (dictInsert acc x v) hxs hacc', dictKeys_dictInsert, if_neg hx]
      simp

lemma nodup_dictKeys_foldl (fs : FS) (p : String) :
    ∀ (l : List String) (acc : List (String × String)),
      (dictKeys acc).Nodup → (dictKeys (l.foldl (readEntry fs p) acc)).Nodup := by
  intro l
  induction l with
  | nil =>
    intro acc h
    exact h
  | cons x xs ih =>
    intro acc h
    rw [List.foldl_cons, readEntry_eq]
    cases valueFor fs p x with
    | none => exact ih acc h
    | some v => exact ih _ (nodup_dictKeys_dictInsert _ _ _ h)

/-! ### Helper lemmas about universal-newlines translation -/

lemma cr_not_mem_translateNewlines (l : List Char) : '\r' ∉ translateNewlines l := by
  induction l using translateNewlines.induct with
  | case1 => simp [translateNewlines]
  | case2 rest ih => simp [translateNewlines, ih]
  | case3 rest h ih => simp [translateNewlines, ih]
  | case4 c rest h1 h2 ih =>
    simp only [translateNewlines, List.mem_cons, not_or]
    exact ⟨fun h => h2 h.symm, ih⟩

lemma translateNewlines_of_not_mem (l : List Char) (h : '\r' ∉ l) :
    translateNewlines l = l := by
  induction l using translateNewlines.induct with
  | case1 => rfl
  | case2 rest ih => simp at h
  | case3 rest hne ih => simp at h
  | case4 c rest h1 h2 ih =>
    simp only [translateNewlines]
    rw [ih fun hm => h (List.mem_cons_of_mem _ hm)]

lemma universalNewlines_of_no_cr (s : String) (h : '\r' ∉ s.data) :
    universalNewlines s = s := by
  simp only [universalNewlines, translateNewlines_of_not_mem s.data h]

lemma universalNewlines_ne_of_cr (s : String) (h : '\r' ∈ s.data) :
    universalNewlines s ≠ s := by
  intro heq
  have hdata : translateNewlines s.data = s.data := congrArg String.data heq
  rw [← hdata] at h
  exact cr_not_mem_translateNewlines s.data h


lemma readEntryT_fst (fs : FS) (p : String) (st : List (String × String) × List FSOp)
    (x : String) : (readEntryT fs p st x).1 = readEntry fs p st.1 x := by
  simp only [readEntryT, readEntry]
  by_cases h : fs.isfile (osPathJoin p x)
  · simp only [if_pos h]
    cases fs.readRaw (osPathJoin p x) <;> rfl
  · simp only [if_neg h]

lemma foldl_readEntryT_fst (fs : FS) (p : String) :
    ∀ (l : List String) (st : List (String × String) × List FSOp),
      (l.foldl (readEntryT fs p) st).1 = l.foldl (readEntry fs p) st.1 := by
  intro l
  induction l with
  | nil => intro st; rfl
  | cons x xs ih =>
    intro st
    rw [List.foldl_cons, List.foldl_cons, ih, readEntryT_fst]

lemma readEntryT_snd_nonmutating (fs : FS) (p : String)
    (st : List (String × String) × List FSOp) (x : String)
    (h : ∀ op ∈ st.2, op.isMutating = false) :
    ∀ op ∈ (readEntryT fs p st x).2, op.isMutating = false := by
  intro op hop
  simp only [readEntryT] at hop
  by_cases hf : fs.isfile (osPathJoin p x)
  · rw [if_pos hf] at hop
    cases hraw : fs.readRaw (osPathJoin p x) <;>
      · rw [hraw] at hop
        simp only [List.mem_append, List.mem_cons, List.mem_singleton] at hop
        rcases hop with hop | hop | hop | hop
        · exact h op hop
        · subst hop; rfl
        · subst hop; rfl
        · cases hop
  · rw [if_neg hf] at hop
    simp only [List.mem_append, List.mem_singleton] at hop
    rcases hop with hop | hop
    · exact h op hop
    · subst hop; rfl

lemma foldl_readEntryT_snd_nonmutating (fs : FS) (p : String) :
    ∀ (l : List String) (st : List (String × String) × List FSOp),
      (∀ op ∈ st.2, op.isMutating = false) →
      ∀ op ∈ (l.foldl (readEntryT fs p) st).2, op.isMutating = false := by
  intro l
  induction l with
  | nil => intro st h; exact h
  | cons x xs ih =>
    intro st h
    rw [List.foldl_cons]
    exact ih _ (readEntryT_snd_nonmutating fs p st x h)

lemma applyOp_of_nonmutating (fs : FS) (op : FSOp) (h : op.isMutating = false) :
    applyOp fs op = fs := by
  cases op <;> first | rfl | (exact absurd h (by simp [FSOp.isMutating]))

lemma foldl_applyOp_of_nonmutating (ops : List FSOp) :
    ∀ fs : FS, (∀ op ∈ ops, op.isMutating = false) →
      ops.foldl applyOp fs = fs := by
  induction ops with
  | nil => intro fs _; rfl
  | cons op rest ih =>
    intro fs h
    rw [List.foldl_cons, applyOp_of_nonmutating fs op (h op (List.mem_cons_self op rest))]
    exact ih fs fun o ho => h o (List.mem_cons_of_mem _ ho)

/-! ### Claim theorems -/

/-- C1: for every directory entry whose open or UTF-8 decode fails,
`read_folder` stores under that entry's filename the string
`"Error reading file: "` followed by the failure's description, the call
still returns a mapping (the failure is never raised to the caller), and
every other entry passing the `isfile` test still receives a value: no
single bad file aborts the whole call. -/
theorem read_folder_error_entry (fs : FS) (p n e : String)
    (hdir : fs.isdir p = true) (hmem : n ∈ fs.listdir p)
    (hfile : fs.isfile (osPathJoin p n) = true)
    (herr : fs.readRaw (osPathJoin p n) = .error e) :
    ∃ d, read_folder fs p = .dict d ∧
      lookupDict d n = some ("Error reading file: " ++ e) ∧
      ∀ m ∈ fs.listdir p, fs.isfile (osPathJoin p m) = true →
        (lookupDict d m).isSome = true := by
  refine ⟨(fs.listdir p).foldl (readEntry fs p) [], ?_, ?_, ?_⟩
  · simp [read_folder, hdir]
  · rw [lookupDict_foldl]
    have hv : valueFor fs p n = some ("Error reading file: " ++ e) := by
      simp [valueFor, hfile, herr]
    simp [hv, hmem]
  · intro m hm hmf
    rw [← mem_dictKeys_iff_lookupDict, mem_dictKeys_foldl]
    exact Or.inl ⟨hm, hmf⟩

/-- C1 witness: concrete instance at `fsErrDemo`, whose entry `bad.txt`
fails with a permission error while `a.txt` is still read. -/
theorem read_folder_error_entry_witness :
    ∃ d, read_folder fsErrDemo "/d" = .dict d ∧
      lookupDict d "bad.txt" = some ("Error reading file: " ++ "Permission denied") ∧
      ∀ m ∈ fsErrDemo.listdir "/d", fsErrDemo.isfile (osPathJoin "/d" m) = true →
        (lookupDict d m).isSome = true :=
  read_folder_error_entry fsErrDemo "/d" "bad.txt" "Permission denied"
    rfl (by decide) rfl rfl

/-- C3: `read_folder` returns exactly the literal string
`"Provided path is not a directory."` whenever the path fails the
directory check, and that check is the only path on which a string rather
than a mapping is returned. -/
theorem read_folder_sentinel_iff (fs : FS) (p : String) :
    (fs.isdir p = false →
      read_folder fs p = .str "Provided path is not a directory.") ∧
    ∀ s, read_folder fs p = .str s →
      fs.isdir p = false ∧ s = "Provided path is not a directory." := by
  constructor
  · intro h
    simp [read_folder, h]
  · intro s h
    by_cases hdir : fs.isdir p = true
    · simp [read_folder, hdir] at h
    · rw [Bool.not_eq_true] at hdir
      simp only [read_folder, hdir, Bool.false_eq_true, if_false, PyValue.str.injEq] at h
      exact ⟨hdir, h.symm⟩

/-- C3 witness: a path that is not a directory yields the sentinel
string. -/
theorem read_folder_sentinel_iff_witness :
    read_folder fsNotDirC3 "nope" = .str "Provided path is not a directory." :=
  (read_folder_sentinel_iff fsNotDirC3 "nope").1 rfl

/-- C5: calling `read_folder` twice on the same path over an unchanged
filesystem snapshot yields mappings with identical keys and identical
values: the function is deterministic and holds no state across calls. -/
theorem read_folder_deterministic (fs : FS) (p : String)
    (d₁ d₂ : List (String × String))
    (h₁ : read_folder fs p = .dict d₁) (h₂ : read_folder fs p = .dict d₂) :
    dictKeys d₁ = dictKeys d₂ ∧ ∀ n, lookupDict d₁ n = lookupDict d₂ n := by
  rw [h₁] at h₂
  injection h₂ with h
  subst h
  exact ⟨rfl, fun _ => rfl⟩

/-- C5 witness: two calls on `fsDetC5` produce the same mapping. -/
theorem read_folder_deterministic_witness :
    dictKeys [("a.txt", "hi")] = dictKeys [("a.txt", "hi")] ∧
      ∀ n, lookupDict [("a.txt", "hi")] n = lookupDict [("a.txt", "hi")] n :=
  read_folder_deterministic fsDetC5 "/d" [("a.txt", "hi")] [("a.txt", "hi")] rfl rfl

/-- C7: for every empty existing directory, `read_folder` returns an
empty mapping. -/
theorem read_folder_empty_dir (fs : FS) (p : String)
    (hdir : fs.isdir p = true) (hl : fs.listdir p = []) :
    read_folder fs p = .dict [] := by
  simp [read_folder, hdir, hl]

/-- C7 witness: the empty directory of `fsEmptyC7`. -/
theorem read_folder_empty_dir_witness : read_folder fsEmptyC7 "/d" = .dict [] :=
  read_folder_empty_dir fsEmptyC7 "/d" rfl rfl

/-- C2 counterexample: `fsCrlfC2` is an existing directory containing only
a regular file whose bytes decode to the valid UTF-8 text `"x\r\ny"`, yet
the value `read_folder` returns for it is `"x\ny"`, not the exact file
content: text mode translated the CRLF line ending. -/
theorem read_folder_crlf_not_exact :
    fsCrlfC2.readRaw "/d/a.txt" = Except.ok "x\r\ny" ∧
    read_folder fsCrlfC2 "/d" = .dict [("a.txt", "x\ny")] ∧
    read_folder fsCrlfC2 "/d" ≠ .dict [("a.txt", "x\r\ny")] :=
  ⟨rfl, rfl, by decide⟩

/-- C2 (amended): for every existing directory containing only regular
files whose bytes are valid UTF-8 text, `read_folder` returns a mapping
whose key set equals the set of filenames in the directory; the value for
each filename is the file's decoded content after universal-newlines
translation, which equals the exact content whenever the content contains
no carriage return. -/
theorem read_folder_good_dir (fs : FS) (p : String) (content : String → String)
    (hdir : fs.isdir p = true) (hnd : (fs.listdir p).Nodup)
    (hall : ∀ n ∈ fs.listdir p, fs.isfile (osPathJoin p n) = true ∧
      fs.readRaw (osPathJoin p n) = Except.ok (content n)) :
    ∃ d, read_folder fs p = .dict d ∧ dictKeys d = fs.listdir p ∧
      (∀ n ∈ fs.listdir p, lookupDict d n = some (universalNewlines (content n))) ∧
      (∀ n ∈ fs.listdir p, '\r' ∉ (content n).data → lookupDict d n = some (content n)) := by
  have hlook : ∀ n ∈ fs.listdir p,
      lookupDict ((fs.listdir p).foldl (readEntry fs p) []) n =
        some (universalNewlines (content n)) := by
    intro n hn
    rw [lookupDict_foldl]
    have hv : valueFor fs p n = some (universalNewlines (content n)) := by
      simp [valueFor, (hall n hn).1, (hall n hn).2]
    simp [hv, hn]
  refine ⟨(fs.listdir p).foldl (readEntry fs p) [], ?_, ?_, hlook, ?_⟩
  · simp [read_folder, hdir]
  · rw [dictKeys_foldl fs p _ [] hnd (by simp [dictKeys])]
    have : (fs.listdir p).filter (fun n => fs.isfile (osPathJoin p n)) = fs.listdir p :=
      List.filter_eq_self.mpr fun a ha => (hall a ha).1
    rw [this]
    rfl
  · intro n hn hcr
    rw [hlook n hn, universalNewlines_of_no_cr (content n) hcr]

/-- C2 witness: `fsGoodC2` holds two CR-free regular files, whose exact
contents come back under their filenames. -/
theorem read_folder_good_dir_witness :
    ∃ d, read_folder fsGoodC2 "/d" = .dict d ∧
      dictKeys d = fsGoodC2.listdir "/d" ∧
      (∀ n ∈ fsGoodC2.listdir "/d",
        lookupDict d n = some (universalNewlines
          (if n = "a.txt" then "alpha" else "beta\n"))) ∧
      (∀ n ∈ fsGoodC2.listdir "/d",
        '\r' ∉ (if n = "a.txt" then "alpha" else "beta\n").data →
          lookupDict d n = some (if n = "a.txt" then "alpha" else "beta\n")) :=
  read_folder_good_dir fsGoodC2 "/d" (fun n => if n = "a.txt" then "alpha" else "beta\n")
    rfl (by decide)
    (by
      intro n hn
      rcases List.mem_cons.mp hn with rfl | hn
      · exact ⟨rfl, rfl⟩
      · rcases List.mem_cons.mp hn with rfl | hn
        · exact ⟨rfl, rfl⟩
        · cases hn)

/-- C4 counterexample: in `fsSymC4` the only entry of `/d` is a symbolic
link to a regular file; the platform's `isfile` test follows symbolic
links, so the entry appears in the result with the linked file's content —
symbolic links to files are not excluded. -/
theorem read_folder_symlink_included :
    fsSymC4.kindAt "/d/link.txt" = EntryKind.symlinkToFile ∧
    read_folder fsSymC4 "/d" = .dict [("link.txt", "hello")] :=
  ⟨rfl, rfl⟩

/-- C4 (amended): `read_folder` enumerates only the directory's immediate
entries (no recursion), and an enumerated entry appears as a key exactly
when it passes the platform's `isfile` test; since that test follows
symbolic links, subdirectories and symbolic links to directories never
appear as keys, while symbolic links to regular files are included. -/
theorem read_folder_keys_iff_isfile (fs : FS) (p : String)
    (hdir : fs.isdir p = true) :
    ∃ d, read_folder fs p = .dict d ∧
      (∀ n, n ∈ dictKeys d → n ∈ fs.listdir p) ∧
      (∀ n ∈ fs.listdir p, (n ∈ dictKeys d ↔ fs.isfile (osPathJoin p n) = true)) := by
  refine ⟨(fs.listdir p).foldl (readEntry fs p) [], by simp [read_folder, hdir], ?_, ?_⟩
  · intro n hn
    rw [mem_dictKeys_foldl] at hn
    rcases hn with ⟨hmem, _⟩ | hacc
    · exact hmem
    · simp [dictKeys] at hacc
  · intro n hn
    rw [mem_dictKeys_foldl]
    constructor
    · rintro (⟨_, hf⟩ | hacc)
      · exact hf
      · simp [dictKeys] at hacc
    · intro hf
      exact Or.inl ⟨hn, hf⟩

/-- C4 witness: in `fsMixedC4` the regular file is a key while the
subdirectory and the symbolic link to a directory are not. -/
theorem read_folder_keys_iff_isfile_witness :
    ∃ d, read_folder fsMixedC4 "/d" = .dict d ∧
      (∀ n, n ∈ dictKeys d → n ∈ fsMixedC4.listdir "/d") ∧
      (∀ n ∈ fsMixedC4.listdir "/d",
        (n ∈ dictKeys d ↔ fsMixedC4.isfile (osPathJoin "/d" n) = true)) :=
  read_folder_keys_iff_isfile fsMixedC4 "/d" rfl

/-- C6: in the mapping returned by `read_folder`, each filename appears as
a key at most once, and when the directory enumeration has no duplicate
names (as a real directory does) the keys are exactly the enumerated
entries passing the `isfile` test, in enumeration order — no sorting is
applied. -/
theorem read_folder_keys_unique_ordered (fs : FS) (p : String)
    (d : List (String × String)) (h : read_folder fs p = .dict d) :
    (dictKeys d).Nodup ∧
      ((fs.listdir p).Nodup →
        dictKeys d = (fs.listdir p).filter fun n => fs.isfile (osPathJoin p n)) := by
  by_cases hdir : fs.isdir p = true
  · simp only [read_folder, if_pos hdir] at h
    injection h with h
    subst h
    refine ⟨nodup_dictKeys_foldl fs p _ [] (by simp [dictKeys]), fun hnd => ?_⟩
    rw [dictKeys_foldl fs p _ [] hnd (by simp [dictKeys])]
    rfl
  · rw [Bool.not_eq_true] at hdir
    simp [read_folder, hdir] at h

/-- C6 witness: `fsOrderC6` enumerates `["b.txt", "sub", "a.txt"]`; the
keys come back as `["b.txt", "a.txt"]`, unique and in enumeration order,
not sorted. -/
theorem read_folder_keys_unique_ordered_witness :
    (dictKeys [("b.txt", "b"), ("a.txt", "a")]).Nodup ∧
      ((fsOrderC6.listdir "/d").Nodup →
        dictKeys [("b.txt", "b"), ("a.txt", "a")] =
          (fsOrderC6.listdir "/d").filter fun n => fsOrderC6.isfile (osPathJoin "/d" n)) :=
  read_folder_keys_unique_ordered fsOrderC6 "/d" [("b.txt", "b"), ("a.txt", "a")] rfl

/-- C8: `read_folder` performs read-only filesystem access: the
instrumented run computes the same result as `read_folder`, every
operation in its trace is a non-mutating query or read, and replaying the
trace against the filesystem state leaves it unchanged — no file is
written or deleted. -/
theorem read_folder_read_only (fs : FS) (p : String) :
    (readFolderT fs p).1 = read_folder fs p ∧
      (∀ op ∈ (readFolderT fs p).2, op.isMutating = false) ∧
      ((readFolderT fs p).2).foldl applyOp fs = fs := by
  have hops : ∀ op ∈ (readFolderT fs p).2, op.isMutating = false := by
    by_cases hdir : fs.isdir p = true
    · simp only [readFolderT, if_pos hdir]
      refine foldl_readEntryT_snd_nonmutating fs p _ _ ?_
      intro op hop
      rcases List.mem_cons.mp hop with rfl | hop
      · rfl
      · rcases List.mem_cons.mp hop with rfl | hop
        · rfl
        · cases hop
    · rw [Bool.not_eq_true] at hdir
      simp only [readFolderT, hdir, Bool.false_eq_true, if_false]
      intro op hop
      rcases List.mem_cons.mp hop with rfl | hop
      · rfl
      · cases hop
  refine ⟨?_, hops, foldl_applyOp_of_nonmutating _ fs hops⟩
  by_cases hdir : fs.isdir p = true
  · simp only [readFolderT, read_folder, if_pos hdir]
    exact congrArg PyValue.dict (foldl_readEntryT_fst fs p _ _)
  · rw [Bool.not_eq_true] at hdir
    simp only [readFolderT, read_folder, hdir, Bool.false_eq_true, if_false]

/-- C8 witness: replaying the trace of the call on `fsFrameC8` leaves the
filesystem unchanged. -/
theorem read_folder_read_only_witness :
    ((readFolderT fsFrameC8 "/d").2).foldl applyOp fsFrameC8 = fsFrameC8 :=
  (read_folder_read_only fsFrameC8 "/d").2.2

/-- C9: `read_folder` performs no home-directory expansion itself: a path
beginning with `~` that names an existing directory only after expansion
still fails the verbatim directory check and yields the sentinel string;
expansion is the caller's responsibility, and the inputs built by
`FileCleaner.kickoff` pass both folder parameters through `expanduser`. -/
theorem read_folder_verbatim_kickoff_expanduser (fs : FS)
    (expandu : String → String) (p t s : String) :
    (startsWithTilde p = true → fs.isdir (expandu p) = true →
      fs.isdir p = false →
      read_folder fs p = .str "Provided path is not a directory.") ∧
    lookupDict (kickoffInputs expandu t s) "target_folder" = some (expandu t) ∧
    lookupDict (kickoffInputs expandu t s) "standard_folder" = some (expandu s) := by
  refine ⟨fun _ _ hdir => ?_, rfl, rfl⟩
  simp [read_folder, hdir]

/-- C9 witness: in `fsTildeC9` the verbatim path `~/d` is not a directory
although its expansion `/home/u/d` is, so the sentinel comes back, and the
kickoff inputs carry the expanded target path. -/
theorem read_folder_verbatim_kickoff_expanduser_witness :
    read_folder fsTildeC9 "~/d" = .str "Provided path is not a directory." ∧
    lookupDict (kickoffInputs expanduserDemo "~/d" "~/e") "target_folder" =
      some (expanduserDemo "~/d") :=
  ⟨(read_folder_verbatim_kickoff_expanduser fsTildeC9 expanduserDemo "~/d" "~/d" "~/e").1
      rfl rfl rfl,
    (read_folder_verbatim_kickoff_expanduser fsTildeC9 expanduserDemo "~/d" "~/d" "~/e").2.1⟩

/-- C10: each file is opened in text mode, so the value stored for a
successfully read file is the decoded text with universal-newlines
translation applied (every `\r\n` and lone `\r` becomes `\n`); whenever
the on-disk content contains a carriage return, the stored value is not
identical to the raw content. -/
theorem read_folder_text_mode_translation (fs : FS) (p n raw : String)
    (hdir : fs.isdir p = true) (hmem : n ∈ fs.listdir p)
    (hfile : fs.isfile (osPathJoin p n) = true)
    (hraw : fs.readRaw (osPathJoin p n) = .ok raw) :
    ∃ d, read_folder fs p = .dict d ∧
      lookupDict d n = some (universalNewlines raw) ∧
      ('\r' ∈ raw.data → universalNewlines raw ≠ raw) := by
  refine ⟨(fs.listdir p).foldl (readEntry fs p) [], by simp [read_folder, hdir], ?_,
    fun hcr => universalNewlines_ne_of_cr raw hcr⟩
  rw [lookupDict_foldl]
  have hv : valueFor fs p n = some (universalNewlines raw) := by
    simp [valueFor, hfile, hraw]
  simp [hv, hmem]

/-- C10 witness: the CRLF file of `fsCrlfC10` comes back as the translated
text, which differs from the on-disk `"x\r\ny"`. -/
theorem read_folder_text_mode_translation_witness :
    ∃ d, read_folder fsCrlfC10 "/d" = .dict d ∧
      lookupDict d "a.txt" = some (universalNewlines "x\r\ny") ∧
      ('\r' ∈ "x\r\ny".data → universalNewlines "x\r\ny" ≠ "x\r\ny") :=
  read_folder_text_mode_translation fsCrlfC10 "/d" "a.txt" "x\r\ny"
    rfl (by decide) rfl rfl
